import Mathlib

/-!
Shallow embedding of `src/pyliferisk/lifecontingencies.py` (pyliferisk,
version 1.8).  Numbers are modelled by `ℚ` (exact arithmetic in place of
Python floats); Python lists become `List ℚ`; a Python expression that can
raise (`ZeroDivisionError`, `IndexError`, `TypeError`) is modelled in
`Option`/a small result type, with `none`/an error constructor at exactly
the inputs where the Python code raises.
-/

namespace Pyliferisk

/-- Index of the first occurrence of `0` in a list, exactly Python's
`list.index(0)` on the inputs where a zero is present (Python raises
`ValueError` otherwise; the table constructor below always appends a
terminal zero, so the zero is always present there). -/
def idxOfZero : List ℚ → ℕ
  | [] => 0
  | a :: rest => if a = 0 then 0 else idxOfZero rest + 1

/-- Model of a `MortalityTable` instance after `__init__` has run: the
survivor column `l_x`, the mortality-rate column `q_x`, the (always empty
at this class) expectancy column `e_x`, and the ultimate-age marker `w`.
`w` is an integer because `self.w = self.l_x.index(0) - 1` can be `-1`. -/
structure MortalityTable where
  l_x : List ℚ
  q_x : List ℚ
  e_x : List ℚ
  w : ℤ

instance : Inhabited MortalityTable := ⟨⟨[], [], [], 0⟩⟩

/-- Loop `for val in self.q_x: self.l_x.append(self.l_x[-1] * (1 - val / 1000))`,
carrying the last appended value. -/
def compoundFromQ (last : ℚ) : List ℚ → List ℚ
  | [] => []
  | v :: rest =>
      let nxt := last * (1 - v / 1000)
      nxt :: compoundFromQ nxt rest

/-- Survivor column built from a rate column: `self.l_x = [100000.0]`
followed by the compounding loop. -/
def buildFromQ (q_x : List ℚ) : List ℚ :=
  100000 :: compoundFromQ 100000 q_x

/-- Retrocompatibility loop over `mt[1:]`: while the running value
`end_val` is below `1000`, append `val * perc / 100` and update it;
afterwards values are skipped. -/
def ntLoop (end_val : ℚ) (perc : ℚ) : List ℚ → List ℚ
  | [] => []
  | v :: rest =>
      if end_val < 1000 then
        let e := v * perc / 100
        e :: ntLoop e perc rest
      else
        ntLoop end_val perc rest

/-- Rate column produced by the `nt` retrocompatibility path:
`init` leading zeros (`[0.0] * init` where `init = mt[0]`), then the
`ntLoop` values, then a trailing `1000` when `perc != 100`. -/
def ntToQ (init : ℕ) (vals : List ℚ) (perc : ℚ) : List ℚ :=
  (List.replicate init 0 ++ ntLoop 0 perc vals) ++
    (if perc ≠ 100 then [1000] else [])

/-- `if self.l_x[-1] != 0.0: self.l_x.append(0.0)`. -/
def appendTerminalZero (l : List ℚ) : List ℚ :=
  if l.getLast? = some 0 then l else l ++ [0]

/-- `MortalityTable.__init__(l_x, q_x, nt, perc)`.  The `nt` argument is
modelled as `Option (ℕ × List ℚ)`: Python treats `nt` as a list whose
first element is the integer count of leading non-applicable ages
(`nt = None` or the empty list, both falsy, map to `none`).  The
construction is total: no branch of the Python body can raise for any
argument values (`self.l_x.index(0)` always succeeds because a terminal
zero is present or appended first). -/
def mkMortalityTable (l_x q_x : List ℚ) (nt : Option (ℕ × List ℚ))
    (perc : ℚ) : MortalityTable :=
  let q1 : List ℚ :=
    match nt with
    | some p => ntToQ p.1 p.2 perc
    | none => q_x
  let l1 : List ℚ := if l_x = [] then buildFromQ q1 else l_x
  let l2 : List ℚ := appendTerminalZero l1
  { l_x := l2, q_x := q1, e_x := [], w := (idxOfZero l2 : ℤ) - 1 }

/-- Model of a `Pers` instance after `__init__` has run. -/
structure Pers where
  l_x : List ℚ
  q_x : List ℚ
  e_x : List ℚ
  w : ℤ

/-- Python `min(age_list)`; Python raises `ValueError` on an empty list,
which never happens for the constructions the claims quantify over
(the default argument is `[0]`). -/
def listMin : List ℤ → ℤ
  | [] => 0
  | a :: rest => rest.foldl min a

/-- One iteration of the `for i in range(0, self.w)` loop of
`Pers.__init__`, acting on the current `self.l_x`:
`if i < len(self.l_x): self.l_x.append(0)` followed by
`if i+os < len(mt.l_x): self.l_x[i] *= mt.l_x[i+os] else: self.l_x[i] = 0`.
`mt` and `os` here are the loop variables left over from the earlier
offset loop, i.e. the LAST table and its offset (`List.set` silently
no-ops where Python's `self.l_x[i] = ...` would raise `IndexError`; that
situation only arises when the initial slice is empty, where the Python
constructor crashes and no object exists). -/
def persStep (mtL : List ℚ) (os : ℤ) (l : List ℚ) (i : ℕ) : List ℚ :=
  let l1 := if i < l.length then l ++ [0] else l
  if (i : ℤ) + os < (mtL.length : ℤ) then
    l1.set i (l1.getD i 0 * mtL.getD ((i : ℤ) + os).toNat 0)
  else
    l1.set i 0

/-- The `q_x` loop of `Pers.__init__`: iterate over consecutive pairs of
`l_x`, appending `(lx - lx1) * 1000 / lx` when `lx > 0` and the sentinel
`1` otherwise. -/
def persQaux (lx : ℚ) : List ℚ → List ℚ
  | [] => []
  | lx1 :: rest =>
      (if lx > 0 then (lx - lx1) * 1000 / lx else 1) :: persQaux lx1 rest

/-- `q_x` of a `Pers` from its `l_x`. -/
def persQ : List ℚ → List ℚ
  | [] => []
  | lx :: rest => persQaux lx rest

/-- The `e_x` loop of `Pers.__init__`, carrying the running
`sum_lx` (initially `sum(self.l_x[0:-1])`, decremented by the current
entry before use). -/
def persEaux (s : ℚ) : List ℚ → List ℚ
  | [] => []
  | lxg :: rest =>
      let s1 := s - lxg
      (if lxg > 0 then 1 / 2 + s1 / lxg else 1 / 2) :: persEaux s1 rest

/-- `e_x` of a `Pers` from its `l_x`. -/
def persE (l : List ℚ) : List ℚ :=
  persEaux l.dropLast.sum l.dropLast

/-- `Pers.__init__(MortalityTable_list, age_list)`.  Faithful to the
source, including its quirks: the `w` fold treats an accumulated `0` as
"unset"; the multiplication loop is NOT nested under the
`for t in range(1, len(MortalityTable_list))` loop, so it uses only the
last table (`mt`, `os` are the leftover loop variables); every iteration
appends a trailing `0` because `i < len(self.l_x)` always holds. -/
def mkPers (mts : List MortalityTable) (ages : List ℤ) : Pers :=
  let age_min := listMin ages
  let offsets := ages.map (fun a => a - age_min)
  let w : ℤ :=
    ((mts.zip offsets).map (fun p => p.1.w - p.2)).foldl
      (fun acc v => if acc = 0 then v else min acc v) 0
  let mtLastL := (mts.getLastD default).l_x
  let osLast := offsets.getLastD 0
  let l0 := (mts.headD default).l_x.drop (offsets.headD 0).toNat
  let l := (List.range w.toNat).foldl (persStep mtLastL osLast) l0
  { l_x := l, q_x := persQ l, e_x := persE l, w := w }

/-- The `D_x` loop of `Actuarial.__init__`: iterate over `l_x` with an age
counter, appending `((1 / (1 + i)) ** age) * j` where `i = self.rate(age)`. -/
def mkDaux (rate : ℕ → ℚ) (age : ℕ) : List ℚ → List ℚ
  | [] => []
  | j :: rest => ((1 / (1 + rate age)) ^ age * j) :: mkDaux rate (age + 1) rest

/-- `D_x` from `l_x` and the rate function. -/
def mkD (rate : ℕ → ℚ) (l : List ℚ) : List ℚ := mkDaux rate 0 l

/-- The `N_x` loop: `for k in range(0, len(self.D_x)): self.N_x.append(sum(self.D_x[k:]))`. -/
def mkN (D : List ℚ) : List ℚ :=
  (List.range D.length).map (fun k => (D.drop k).sum)

/-- The `C_x` loop of `Actuarial.__init__`: `age` starts at `-1` and `lx0`
at `l_x[0]`; the loop runs over ALL of `l_x` (its first iteration thus
pairs `l_x[0]` with itself), appending
`((1/(1+i))**(age+1)) * (lx0-lx1) * ((1+i)**0.5)`.  The float square root
`(1+i)**0.5` is modelled by the oracle function `sq` (see `Actuarial.sqrtRate`). -/
def mkCaux (rate sq : ℕ → ℚ) (age : ℕ) (lx0 : ℚ) : List ℚ → List ℚ
  | [] => []
  | lx1 :: rest =>
      ((1 / (1 + rate age)) ^ (age + 1) * (lx0 - lx1) * sq age) ::
        mkCaux rate sq (age + 1) lx1 rest

/-- `C_x` from `l_x`, the rate function and the square-root oracle. -/
def mkC (rate sq : ℕ → ℚ) (l : List ℚ) : List ℚ :=
  mkCaux rate sq 0 (l.headD 0) l

/-- The `M_x` loop: `for m in range(0, len(self.C_x)): self.M_x.append(sum(self.C_x[m:]))`. -/
def mkM (C : List ℚ) : List ℚ :=
  (List.range C.length).map (fun m => (C.drop m).sum)

/-- Model of an `Actuarial` instance after `__init__` has run.
`rate` is the age-to-rate function (Python wraps a bare float into a
constant lambda; here a constant rate is the constant function).
`sqrtRate age` is an oracle standing for the float value
`(1 + rate age) ** 0.5` used when building `C_x`: `ℚ` has no square
roots, so the embedding carries the value as data; every theorem below
holds for all values of this oracle, and concrete instances use exact
cases such as `rate = 0`, where `(1 + 0) ** 0.5 = 1` exactly. -/
structure Actuarial where
  rate : ℕ → ℚ
  sqrtRate : ℕ → ℚ
  l_x : List ℚ
  q_x : List ℚ
  e_x : List ℚ
  w : ℤ
  D_x : List ℚ
  N_x : List ℚ
  C_x : List ℚ
  M_x : List ℚ

/-- `Actuarial.__init__(rate, pers)`: copy the model columns `l_x`, `q_x`,
`e_x`, `w` from the `pers` argument (a `Pers` or a `MortalityTable`,
duck-typed: only those four attributes are read) and build the four
commutation columns. -/
def mkActuarial (rate sq : ℕ → ℚ) (l q e : List ℚ) (w : ℤ) : Actuarial :=
  { rate := rate, sqrtRate := sq, l_x := l, q_x := q, e_x := e, w := w
    D_x := mkD rate l
    N_x := mkN (mkD rate l)
    C_x := mkC rate sq l
    M_x := mkM (mkC rate sq l) }

/-- `Actuarial` built directly on a constructed `MortalityTable`. -/
def actuarialOfTable (rate sq : ℕ → ℚ) (t : MortalityTable) : Actuarial :=
  mkActuarial rate sq t.l_x t.q_x t.e_x t.w

/-- `Actuarial` built on a constructed `Pers`. -/
def actuarialOfPers (rate sq : ℕ → ℚ) (p : Pers) : Actuarial :=
  mkActuarial rate sq p.l_x p.q_x p.e_x p.w

/-- `Dx(x)`: the stored value, or `0` past the end of the column. -/
def Actuarial.Dx (a : Actuarial) (x : ℕ) : ℚ :=
  if x < a.D_x.length then a.D_x.getD x 0 else 0

/-- `Nx(x)`: the stored value, or `0` past the end of the column. -/
def Actuarial.Nx (a : Actuarial) (x : ℕ) : ℚ :=
  if x < a.N_x.length then a.N_x.getD x 0 else 0

/-- `Sx(x) = sum(self.N_x[x:])`. -/
def Actuarial.Sx (a : Actuarial) (x : ℕ) : ℚ :=
  (a.N_x.drop x).sum

/-- `Cx(x)`: the stored value, or `0` past the end of the column. -/
def Actuarial.Cx (a : Actuarial) (x : ℕ) : ℚ :=
  if x < a.C_x.length then a.C_x.getD x 0 else 0

/-- `Mx(x)`: the stored value, or `0` past the end of the column. -/
def Actuarial.Mx (a : Actuarial) (x : ℕ) : ℚ :=
  if x < a.M_x.length then a.M_x.getD x 0 else 0

/-- `Rx(x) = sum(self.M_x[x:])`. -/
def Actuarial.Rx (a : Actuarial) (x : ℕ) : ℚ :=
  (a.M_x.drop x).sum

/-- `nEx(x, n) = self.Dx(x+n) / self.Dx(x)`; Python raises
`ZeroDivisionError` exactly when `Dx(x) = 0`, modelled by `none`. -/
def Actuarial.nEx (a : Actuarial) (x n : ℕ) : Option ℚ :=
  if a.Dx x = 0 then none else some (a.Dx (x + n) / a.Dx x)

/-- `Ax(x) = self.Mx(x) / self.Dx(x)`; `none` models the
`ZeroDivisionError` at `Dx(x) = 0`. -/
def Actuarial.Ax (a : Actuarial) (x : ℕ) : Option ℚ :=
  if a.Dx x = 0 then none else some (a.Mx x / a.Dx x)

/-- `Axn(x, n) = (self.Mx(x) - self.Mx(x+n)) / self.Dx(x)`; `none` models
the `ZeroDivisionError` at `Dx(x) = 0`. -/
def Actuarial.Axn (a : Actuarial) (x n : ℕ) : Option ℚ :=
  if a.Dx x = 0 then none else some ((a.Mx x - a.Mx (x + n)) / a.Dx x)

/-- `tAx(x, t) = self.Mx(x+t) / self.Dx(x)`; `none` models the
`ZeroDivisionError` at `Dx(x) = 0`. -/
def Actuarial.tAx (a : Actuarial) (x t : ℕ) : Option ℚ :=
  if a.Dx x = 0 then none else some (a.Mx (x + t) / a.Dx x)

/-- `AExn(x, n) = self.Axn(x, n) + self.nEx(x, n)` (Python evaluates
`Axn` first; an exception in either term propagates). -/
def Actuarial.AExn (a : Actuarial) (x n : ℕ) : Option ℚ := do
  let t ← a.Axn x n
  let e ← a.nEx x n
  pure (t + e)

/-- `aaxn(x, n, m)`: temporary annuity-due, with the `res = 1` fallback
when not `Dx > 0`.  For `m != 1` Python first evaluates
`float(m-1)/float(m*2)`, which raises `ZeroDivisionError` when `m = 0`
(before `nEx` is called; modelled by `none`); then the `nEx` call's own
`ZeroDivisionError` propagates.  For `m >= 2` the rational division is
exact. -/
def Actuarial.aaxn (a : Actuarial) (x n m : ℕ) : Option ℚ :=
  let d := a.Dx x
  let res : ℚ := if d > 0 then (a.Nx x - a.Nx (x + n)) / d else 1
  if m = 1 then some res
  else if m = 0 then none
  else
    match a.nEx x n with
    | none => none
    | some e => some (res - ((m : ℚ) - 1) / ((m : ℚ) * 2) * (1 - e))

/-- `axn(x, n, m)`: temporary annuity-immediate, fallback `res = 0`;
for `m != 1`, `m = 0` raises from `float(m-1)/float(m*2)` before the
`nEx` call, whose error otherwise propagates. -/
def Actuarial.axn (a : Actuarial) (x n m : ℕ) : Option ℚ :=
  let d := a.Dx x
  let res : ℚ := if d > 0 then (a.Nx (x + 1) - a.Nx (x + n + 1)) / d else 0
  if m = 1 then some res
  else if m = 0 then none
  else
    match a.nEx x n with
    | none => none
    | some e => some (res + ((m : ℚ) - 1) / ((m : ℚ) * 2) * (1 - e))

/-- `aax(x, m)`: whole-life annuity-due, fallback `res = 1`; the `m != 1`
adjustment `res - float(m-1)/float(m*2)` involves no model value but
still raises `ZeroDivisionError` at `m = 0` (modelled by `none`); the
method returns a number for every `m >= 1`. -/
def Actuarial.aax (a : Actuarial) (x m : ℕ) : Option ℚ :=
  let d := a.Dx x
  let res : ℚ := if d > 0 then a.Nx x / d else 1
  if m = 1 then some res
  else if m = 0 then none
  else some (res - ((m : ℚ) - 1) / ((m : ℚ) * 2))

/-- `ax(x, m)`: whole-life annuity-immediate, fallback `res = 0`;
raises at `m = 0` and returns a number for every `m >= 1`, like `aax`. -/
def Actuarial.ax (a : Actuarial) (x m : ℕ) : Option ℚ :=
  let d := a.Dx x
  let res : ℚ := if d > 0 then a.Nx (x + 1) / d else 0
  if m = 1 then some res
  else if m = 0 then none
  else some (res + ((m : ℚ) - 1) / ((m : ℚ) * 2))

/-- `taax(x, t, m)`: deferred whole-life annuity-due, fallback
`res = (1 if t == 0 else 0)`; for `m != 1`, `m = 0` raises from
`float(m-1)/float(m*2)` before the `nEx` call, whose error otherwise
propagates. -/
def Actuarial.taax (a : Actuarial) (x t m : ℕ) : Option ℚ :=
  let d := a.Dx x
  let res : ℚ := if d > 0 then a.Nx (x + t) / d else (if t = 0 then 1 else 0)
  if m = 1 then some res
  else if m = 0 then none
  else
    match a.nEx x t with
    | none => none
    | some e => some (res - ((m : ℚ) - 1) / ((m : ℚ) * 2) * (1 - e))

/-- `tax(x, t, m)`: deferred whole-life annuity-immediate, fallback
`res = 0`; for `m != 1`, `m = 0` raises from `float(m-1)/float(m*2)`
before the `nEx` call, whose error otherwise propagates. -/
def Actuarial.tax (a : Actuarial) (x t m : ℕ) : Option ℚ :=
  let d := a.Dx x
  let res : ℚ := if d > 0 then a.Nx (x + t + 1) / d else 0
  if m = 1 then some res
  else if m = 0 then none
  else
    match a.nEx x t with
    | none => none
    | some e => some (res + ((m : ℚ) - 1) / ((m : ℚ) * 2) * (1 - e))

/-- Outcome of calling a Python method: a numeric return value, the
`None` value (a `pass` body), or a raised exception. -/
inductive PyRet where
  | val (q : ℚ)
  | noneRet
  | exn
  deriving DecidableEq

/-- First `def Iaaxn(self, x, n)` in the class body (source lines
432-434): `(self.Sx(x) - self.Sx(x+n) - n*self.N_x[x+n]) / self.Dx(x)`.
`self.N_x[x+n]` raises `IndexError` when `x+n` is out of range, and the
division raises `ZeroDivisionError` when `Dx(x) = 0`. -/
def Iaaxn_v1 (a : Actuarial) (x n : ℕ) : PyRet :=
  if x + n < a.N_x.length then
    if a.Dx x = 0 then .exn
    else .val ((a.Sx x - a.Sx (x + n) - (n : ℚ) * a.N_x.getD (x + n) 0) / a.Dx x)
  else .exn

/-- First `def Iaxn(self, x, n)` in the class body (source lines
436-438): its expression contains `self.N_x(x+n+1)`, a call of the list
`N_x`, so every invocation raises `TypeError` before anything else. -/
def Iaxn_v1 (_a : Actuarial) (_x _n : ℕ) : PyRet := .exn

/-- Second `def Iaaxn(self, x, n)` in the class body (source lines
452-453): a bare `pass`, so the call returns `None`. -/
def Iaaxn_v2 (_a : Actuarial) (_x _n : ℕ) : PyRet := .noneRet

/-- Second `def Iaxn(self, x, n)` in the class body (source lines
455-456): a bare `pass`, so the call returns `None`. -/
def Iaxn_v2 (_a : Actuarial) (_x _n : ℕ) : PyRet := .noneRet

/-- The `(self, x, n)`-shaped method definitions of the `Actuarial` class
body that share the names `Iaaxn` and `Iaxn`, in source order (the
`Iaax`/`Iax` definitions of other arity sit between them and do not
affect the resolution of these two names). -/
def actuarialClassBody : List (String × (Actuarial → ℕ → ℕ → PyRet)) :=
  [("Iaaxn", Iaaxn_v1), ("Iaxn", Iaxn_v1), ("Iaaxn", Iaaxn_v2), ("Iaxn", Iaxn_v2)]

/-- Python class-body semantics: each `def` stores its function under its
name in the class dict, so a later definition overwrites an earlier one
with the same name; attribute lookup sees the LAST binding. -/
def resolveMethod (nm : String) : Option (Actuarial → ℕ → ℕ → PyRet) :=
  (actuarialClassBody.filter (fun p => p.1 = nm)).getLast?.map (fun p => p.2)

/-- Call a `(self, x, n)`-shaped method by name; a missing name would be
an `AttributeError`, i.e. an exception. -/
def callMethod (nm : String) (a : Actuarial) (x n : ℕ) : PyRet :=
  match resolveMethod nm with
  | some f => f a x n
  | none => .exn

/-- Constant zero rate function (the Python constant-rate path wraps a
float into `lambda age: rate`). -/
def flatRate0 : ℕ → ℚ := fun _ => 0

/-- Exact value of the float square root `(1 + i) ** 0.5` along a zero
rate curve: `1.0 ** 0.5 = 1.0` exactly, also in floating point. -/
def sqrtOne : ℕ → ℚ := fun _ => 1

/-- Concrete table from the survivor curve `[1000, 500, 0]`. -/
def tbl500 : MortalityTable := mkMortalityTable [1000, 500, 0] [] none 100

/-- Concrete table from the survivor curve `[1000, 800, 0]`. -/
def tblA : MortalityTable := mkMortalityTable [1000, 800, 0] [] none 100

/-- Concrete table from the survivor curve `[1000, 600, 0]`. -/
def tblB : MortalityTable := mkMortalityTable [1000, 600, 0] [] none 100

/-- Concrete table from the survivor curve `[1000, 400, 0]`. -/
def tblC : MortalityTable := mkMortalityTable [1000, 400, 0] [] none 100

/-- Concrete table from the survivor curve `[1000, 500, 400, 0]`. -/
def tbl400 : MortalityTable := mkMortalityTable [1000, 500, 400, 0] [] none 100

/-- Concrete commutation model: `tbl500` at a flat zero rate. -/
def act500 : Actuarial := actuarialOfTable flatRate0 sqrtOne tbl500

/-- Concrete commutation model: `tbl400` at a flat zero rate. -/
def act400 : Actuarial := actuarialOfTable flatRate0 sqrtOne tbl400

/-! Helper lemmas about the embedded operations. -/

theorem idxOfZero_le_length : ∀ l : List ℚ, idxOfZero l ≤ l.length
  | [] => le_refl 0
  | a :: rest => by
      unfold idxOfZero
      split
      · simp
      · simpa [Nat.succ_le_succ_iff] using idxOfZero_le_length rest

theorem getD_idxOfZero_eq_zero :
    ∀ l : List ℚ, idxOfZero l < l.length → l.getD (idxOfZero l) 0 = 0
  | [], h => by simp at h
  | a :: rest, h => by
      unfold idxOfZero at h ⊢
      split
      · simpa
      · next ha =>
          rw [if_neg ha] at h
          simpa using getD_idxOfZero_eq_zero rest (by simpa using h)

theorem getD_ne_zero_of_lt_idxOfZero :
    ∀ (l : List ℚ) (k : ℕ), k < idxOfZero l → l.getD k 0 ≠ 0
  | [], k, h => by simp [idxOfZero] at h
  | a :: rest, k, h => by
      unfold idxOfZero at h
      by_cases ha : a = 0
      · rw [if_pos ha] at h
        exact absurd h (Nat.not_lt_zero k)
      · rw [if_neg ha] at h
        cases k with
        | zero => simpa using ha
        | succ j =>
            rw [List.getD_cons_succ]
            exact getD_ne_zero_of_lt_idxOfZero rest j (Nat.lt_of_succ_lt_succ h)

theorem mem_of_getLast?_eq : ∀ {l : List ℚ} {a : ℚ}, l.getLast? = some a → a ∈ l
  | [], _, h => by simp at h
  | [b], _, h => by
      simp only [List.getLast?_singleton, Option.some.injEq] at h
      simp [h]
  | b :: c :: rest, _, h => by
      rw [List.getLast?_cons_cons] at h
      exact List.mem_cons_of_mem b (mem_of_getLast?_eq h)

theorem appendTerminalZero_getLast? (l : List ℚ) :
    (appendTerminalZero l).getLast? = some 0 := by
  unfold appendTerminalZero
  split
  · assumption
  · exact List.getLast?_concat l

theorem zero_mem_appendTerminalZero (l : List ℚ) :
    (0 : ℚ) ∈ appendTerminalZero l :=
  mem_of_getLast?_eq (appendTerminalZero_getLast? l)

theorem mkMortalityTable_l_x (l_x q_x : List ℚ) (nt : Option (ℕ × List ℚ))
    (perc : ℚ) :
    (mkMortalityTable l_x q_x nt perc).l_x =
      appendTerminalZero (if l_x = [] then
        buildFromQ (match nt with
          | some p => ntToQ p.1 p.2 perc
          | none => q_x)
        else l_x) := rfl

theorem mkMortalityTable_w (l_x q_x : List ℚ) (nt : Option (ℕ × List ℚ))
    (perc : ℚ) :
    (mkMortalityTable l_x q_x nt perc).w =
      (idxOfZero (mkMortalityTable l_x q_x nt perc).l_x : ℤ) - 1 := rfl

theorem zero_mem_mkMortalityTable (l_x q_x : List ℚ) (nt : Option (ℕ × List ℚ))
    (perc : ℚ) : (0 : ℚ) ∈ (mkMortalityTable l_x q_x nt perc).l_x := by
  rw [mkMortalityTable_l_x]
  exact zero_mem_appendTerminalZero _

theorem idxOfZero_lt_length_of_mem :
    ∀ l : List ℚ, (0 : ℚ) ∈ l → idxOfZero l < l.length
  | [], h => by simp at h
  | a :: rest, h => by
      unfold idxOfZero
      split
      · simp
      · next ha =>
          have : (0 : ℚ) ∈ rest := by
            rcases List.mem_cons.mp h with h0 | h0
            · exact absurd h0.symm ha
            · exact h0
          simpa [Nat.succ_lt_succ_iff] using idxOfZero_lt_length_of_mem rest this

theorem appendTerminalZero_ne_nil (l : List ℚ) : appendTerminalZero l ≠ [] := by
  intro h
  have hlast := appendTerminalZero_getLast? l
  rw [h] at hlast
  simp at hlast

theorem appendTerminalZero_of_last_zero (l : List ℚ)
    (h : l.getLast? = some 0) : appendTerminalZero l = l := by
  unfold appendTerminalZero
  exact if_pos h

/-! Projection lemmas exposing the `let`-structure of `mkPers` (all hold
by reflexivity) and concrete evaluations of the fixture tables. -/

theorem mkPers_w (mts : List MortalityTable) (ages : List ℤ) :
    (mkPers mts ages).w =
      ((mts.zip (ages.map (fun a => a - listMin ages))).map
        (fun p => p.1.w - p.2)).foldl
          (fun acc v => if acc = 0 then v else min acc v) 0 := rfl

theorem mkPers_l_x (mts : List MortalityTable) (ages : List ℤ) :
    (mkPers mts ages).l_x =
      (List.range (mkPers mts ages).w.toNat).foldl
        (persStep (mts.getLastD default).l_x
          ((ages.map (fun a => a - listMin ages)).getLastD 0))
        ((mts.headD default).l_x.drop
          ((ages.map (fun a => a - listMin ages)).headD 0).toNat) := rfl

theorem mkPers_q_x (mts : List MortalityTable) (ages : List ℤ) :
    (mkPers mts ages).q_x = persQ (mkPers mts ages).l_x := rfl

theorem tbl500_l_x : tbl500.l_x = [1000, 500, 0] := by
  show (mkMortalityTable [1000, 500, 0] [] none 100).l_x = [1000, 500, 0]
  rw [mkMortalityTable_l_x, if_neg (by decide)]
  exact appendTerminalZero_of_last_zero _ (by decide)

theorem tbl500_w : tbl500.w = 1 := by
  show (mkMortalityTable [1000, 500, 0] [] none 100).w = 1
  rw [mkMortalityTable_w, show (mkMortalityTable [1000, 500, 0] [] none 100).l_x = [1000, 500, 0] from tbl500_l_x]
  decide

theorem tblA_l_x : tblA.l_x = [1000, 800, 0] := by
  show (mkMortalityTable [1000, 800, 0] [] none 100).l_x = [1000, 800, 0]
  rw [mkMortalityTable_l_x, if_neg (by decide)]
  exact appendTerminalZero_of_last_zero _ (by decide)

theorem tblA_w : tblA.w = 1 := by
  show (mkMortalityTable [1000, 800, 0] [] none 100).w = 1
  rw [mkMortalityTable_w, show (mkMortalityTable [1000, 800, 0] [] none 100).l_x = [1000, 800, 0] from tblA_l_x]
  decide

theorem tblB_l_x : tblB.l_x = [1000, 600, 0] := by
  show (mkMortalityTable [1000, 600, 0] [] none 100).l_x = [1000, 600, 0]
  rw [mkMortalityTable_l_x, if_neg (by decide)]
  exact appendTerminalZero_of_last_zero _ (by decide)

theorem tblB_w : tblB.w = 1 := by
  show (mkMortalityTable [1000, 600, 0] [] none 100).w = 1
  rw [mkMortalityTable_w, show (mkMortalityTable [1000, 600, 0] [] none 100).l_x = [1000, 600, 0] from tblB_l_x]
  decide

theorem tblC_l_x : tblC.l_x = [1000, 400, 0] := by
  show (mkMortalityTable [1000, 400, 0] [] none 100).l_x = [1000, 400, 0]
  rw [mkMortalityTable_l_x, if_neg (by decide)]
  exact appendTerminalZero_of_last_zero _ (by decide)

theorem tblC_w : tblC.w = 1 := by
  show (mkMortalityTable [1000, 400, 0] [] none 100).w = 1
  rw [mkMortalityTable_w, show (mkMortalityTable [1000, 400, 0] [] none 100).l_x = [1000, 400, 0] from tblC_l_x]
  decide

theorem tbl400_l_x : tbl400.l_x = [1000, 500, 400, 0] := by
  show (mkMortalityTable [1000, 500, 400, 0] [] none 100).l_x = [1000, 500, 400, 0]
  rw [mkMortalityTable_l_x, if_neg (by decide)]
  exact appendTerminalZero_of_last_zero _ (by decide)

theorem tbl400_w : tbl400.w = 2 := by
  show (mkMortalityTable [1000, 500, 400, 0] [] none 100).w = 2
  rw [mkMortalityTable_w, show (mkMortalityTable [1000, 500, 400, 0] [] none 100).l_x = [1000, 500, 400, 0] from tbl400_l_x]
  decide

theorem pers500_l_x : (mkPers [tbl500] [0]).l_x = [1000000, 500, 0, 0] := by
  have hw : (mkPers [tbl500] [0]).w = 1 := by
    rw [mkPers_w]
    simp [listMin, tbl500_w]
  rw [mkPers_l_x, hw]
  simp only [listMin, List.map_cons, List.map_nil, List.getLastD, List.headD]
  norm_num [persStep, tbl500_l_x, List.range_succ]

theorem persABC_l_x :
    (mkPers [tblA, tblB, tblC] [0, 0, 0]).l_x = [1000000, 800, 0, 0] := by
  have hw : (mkPers [tblA, tblB, tblC] [0, 0, 0]).w = 1 := by
    rw [mkPers_w]
    simp [listMin, tblA_w, tblB_w, tblC_w]
  rw [mkPers_l_x, hw]
  simp only [listMin, List.map_cons, List.map_nil, List.getLastD, List.headD]
  norm_num [persStep, tblA_l_x, tblC_l_x, List.range_succ]

/-! Claim theorems. -/

/-- C2, counterexample: the claim says `w` is the smallest index with
`l[w] = 0`, but for the table built from `[1000, 500, 0]` the code sets
`w = l_x.index(0) - 1 = 1`, and `l[1] = 500 ≠ 0`. -/
theorem C2_w_counterexample :
    (mkMortalityTable [1000, 500, 0] [] none 100).w = 1 ∧
    (mkMortalityTable [1000, 500, 0] [] none 100).l_x.getD 1 0 ≠ 0 := by
  constructor
  · rfl
  · decide

/-- C2, amended: for every constructed `MortalityTable`, `w` is ONE LESS
than the smallest index at which the survivor sequence is zero: the
entry at index `w + 1` is `0` and every entry at an index `≤ w` is
nonzero (hence strictly positive for the usual non-negative inputs). -/
theorem C2_w_amended (l_x q_x : List ℚ) (nt : Option (ℕ × List ℚ)) (perc : ℚ) :
    (mkMortalityTable l_x q_x nt perc).l_x.getD
        ((mkMortalityTable l_x q_x nt perc).w + 1).toNat 0 = 0 ∧
    ∀ k : ℕ, (k : ℤ) ≤ (mkMortalityTable l_x q_x nt perc).w →
      (mkMortalityTable l_x q_x nt perc).l_x.getD k 0 ≠ 0 := by
  have hmem := zero_mem_mkMortalityTable l_x q_x nt perc
  have hlt := idxOfZero_lt_length_of_mem _ hmem
  have hw := mkMortalityTable_w l_x q_x nt perc
  constructor
  · have : ((mkMortalityTable l_x q_x nt perc).w + 1).toNat =
        idxOfZero (mkMortalityTable l_x q_x nt perc).l_x := by
      rw [hw]; omega
    rw [this]
    exact getD_idxOfZero_eq_zero _ hlt
  · intro k hk
    rw [hw] at hk
    exact getD_ne_zero_of_lt_idxOfZero _ k (by omega)

/-- C2, witness for the amended theorem at the table built from
`[1000, 500, 0]` (there `w = 1`, the entry at index `2` is `0` and the
entry at index `1` is nonzero). -/
theorem C2_w_amended_witness :
    (mkMortalityTable [1000, 500, 0] [] none 100).l_x.getD
        ((mkMortalityTable [1000, 500, 0] [] none 100).w + 1).toNat 0 = 0 ∧
    (mkMortalityTable [1000, 500, 0] [] none 100).l_x.getD 1 0 ≠ 0 :=
  ⟨(C2_w_amended [1000, 500, 0] [] none 100).1,
   (C2_w_amended [1000, 500, 0] [] none 100).2 1 (by decide)⟩

/-- C7, counterexample: the claim says construction raises
`InvalidTableError` exactly on an empty, negative-valued or
non-monotone input; the code performs no validation at all (no such
error class exists), and construction SUCCEEDS on an empty input
(producing the default radix curve `[100000, 0]`) and on an input that
is both negative-valued and ascending (passed through unchanged). -/
theorem C7_validation_counterexample :
    (mkMortalityTable [] [] none 100).l_x = [100000, 0] ∧
    (mkMortalityTable [5, 10, -3, 0] [] none 100).l_x = [5, 10, -3, 0] := by
  constructor <;> rfl

/-- C7, amended: construction never raises — it is a total function of
its input; for EVERY input (well-formed or not) it succeeds and yields a
non-empty survivor column whose last entry is the terminal zero. -/
theorem C7_construction_total (l_x q_x : List ℚ) (nt : Option (ℕ × List ℚ))
    (perc : ℚ) :
    (mkMortalityTable l_x q_x nt perc).l_x ≠ [] ∧
    (mkMortalityTable l_x q_x nt perc).l_x.getLast? = some 0 := by
  rw [mkMortalityTable_l_x]
  exact ⟨appendTerminalZero_ne_nil _, appendTerminalZero_getLast? _⟩

/-- C1, evaluation at the failing input: three tables with curves
`[1000, 800, 0]`, `[1000, 600, 0]`, `[1000, 400, 0]`, all at issue age
0.  The claimed element-wise product would give
`l_combined[0] = 1000 * 1000 * 1000`; the code instead multiplies the
first curve only by the LAST table's curve (the multiplication loop is
not nested under the `for t in range(1, K)` loop, whose sole effect is
to leave `mt`/`os` bound to the last table), ignoring the middle table
entirely, and also appends a spurious trailing zero per iteration. -/
theorem C1_pers_product_code_eval :
    (mkPers [tblA, tblB, tblC] [0, 0, 0]).l_x = [1000000, 800, 0, 0] ∧
    (mkPers [tblA, tblB, tblC] [0, 0, 0]).l_x.getD 0 0 ≠
      tblA.l_x.getD 0 0 * tblB.l_x.getD 0 0 * tblC.l_x.getD 0 0 := by
  refine ⟨persABC_l_x, ?_⟩
  rw [persABC_l_x, tblA_l_x, tblB_l_x, tblC_l_x]
  norm_num

/-- C4, evaluation at the failing input: a single table with curve
`[1000, 500, 0]` and age offset 0.  The claim says `Pers` is a
pass-through copy; the code instead multiplies the curve by ITSELF
(`mt` is still bound to the only table), squaring every entry below `w`
and appending a trailing zero, so neither `l` nor the derived `q`
matches the input model (`q[0]` becomes `999.5` instead of the input
curve's one-year death rate `500`). -/
theorem C4_single_life_code_eval :
    (mkPers [tbl500] [0]).l_x = [1000000, 500, 0, 0] ∧
    (mkPers [tbl500] [0]).l_x ≠ tbl500.l_x ∧
    (mkPers [tbl500] [0]).q_x.getD 0 0 ≠
      (tbl500.l_x.getD 0 0 - tbl500.l_x.getD 1 0) * 1000 /
        tbl500.l_x.getD 0 0 := by
  refine ⟨pers500_l_x, ?_, ?_⟩
  · rw [pers500_l_x, tbl500_l_x]
    decide
  · rw [mkPers_q_x, pers500_l_x, tbl500_l_x]
    norm_num [persQ, persQaux]

/-! Helper lemmas for the commutation columns. -/

theorem ifLt_getD (L : List ℚ) (x : ℕ) :
    (if x < L.length then L.getD x 0 else 0) = L.getD x 0 := by
  by_cases hx : x < L.length
  · rw [if_pos hx]
  · rw [if_neg hx, List.getD_eq_default _ _ (Nat.le_of_not_lt hx)]

theorem Dx_getD (a : Actuarial) (x : ℕ) : a.Dx x = a.D_x.getD x 0 := by
  unfold Actuarial.Dx
  exact ifLt_getD _ _

theorem Cx_getD (a : Actuarial) (x : ℕ) : a.Cx x = a.C_x.getD x 0 := by
  unfold Actuarial.Cx
  exact ifLt_getD _ _

theorem sum_drop_eq_getD_add :
    ∀ (L : List ℚ) (x : ℕ), (L.drop x).sum = L.getD x 0 + (L.drop (x + 1)).sum
  | [], x => by simp
  | a :: rest, 0 => by simp
  | a :: rest, x + 1 => by simpa using sum_drop_eq_getD_add rest x

theorem mkN_length (D : List ℚ) : (mkN D).length = D.length := by
  simp [mkN]

theorem mkM_eq_mkN (C : List ℚ) : mkM C = mkN C := rfl

theorem mkN_getD (D : List ℚ) (x : ℕ) (h : x < D.length) :
    (mkN D).getD x 0 = (D.drop x).sum := by
  have hlen : x < (mkN D).length := by rw [mkN_length]; exact h
  rw [List.getD_eq_getElem _ _ hlen]
  simp [mkN]

theorem Nx_sum (rate sq : ℕ → ℚ) (l q e : List ℚ) (w : ℤ) (x : ℕ) :
    (mkActuarial rate sq l q e w).Nx x =
      ((mkActuarial rate sq l q e w).D_x.drop x).sum := by
  show (if x < (mkN (mkD rate l)).length then (mkN (mkD rate l)).getD x 0 else 0) =
    ((mkD rate l).drop x).sum
  by_cases hx : x < (mkD rate l).length
  · rw [if_pos (by rw [mkN_length]; exact hx), mkN_getD _ _ hx]
  · rw [if_neg (by rw [mkN_length]; exact hx),
      List.drop_eq_nil_of_le (Nat.le_of_not_lt hx)]
    simp

theorem Mx_sum (rate sq : ℕ → ℚ) (l q e : List ℚ) (w : ℤ) (x : ℕ) :
    (mkActuarial rate sq l q e w).Mx x =
      ((mkActuarial rate sq l q e w).C_x.drop x).sum := by
  show (if x < (mkM (mkC rate sq l)).length then (mkM (mkC rate sq l)).getD x 0 else 0) =
    ((mkC rate sq l).drop x).sum
  rw [mkM_eq_mkN]
  by_cases hx : x < (mkC rate sq l).length
  · rw [if_pos (by rw [mkN_length]; exact hx), mkN_getD _ _ hx]
  · rw [if_neg (by rw [mkN_length]; exact hx),
      List.drop_eq_nil_of_le (Nat.le_of_not_lt hx)]
    simp

theorem mkDaux_length (rate : ℕ → ℚ) :
    ∀ (L : List ℚ) (age : ℕ), (mkDaux rate age L).length = L.length
  | [], _ => rfl
  | _ :: rest, age => by
      simp [mkDaux, mkDaux_length rate rest (age + 1)]

theorem getD_cons_eq_if (b : ℚ) (rest : List ℚ) (k : ℕ) :
    (b :: rest).getD k 0 = if k = 0 then b else rest.getD (k - 1) 0 := by
  cases k <;> simp

theorem mkCaux_getD (rate sq : ℕ → ℚ) :
    ∀ (L : List ℚ) (a k : ℕ) (lx0 : ℚ), k < L.length →
      (mkCaux rate sq a lx0 L).getD k 0 =
        (1 / (1 + rate (a + k))) ^ (a + k + 1) *
          ((if k = 0 then lx0 else L.getD (k - 1) 0) - L.getD k 0) * sq (a + k)
  | [], a, k, lx0, h => by simp at h
  | lx1 :: rest, a, 0, lx0, h => by simp [mkCaux]
  | lx1 :: rest, a, k + 1, lx0, h => by
      have ih := mkCaux_getD rate sq rest (a + 1) k lx1 (by simpa using h)
      simp only [mkCaux, List.getD_cons_succ]
      rw [ih]
      have h1 : a + 1 + k = a + (k + 1) := by omega
      rw [h1, if_neg (Nat.succ_ne_zero k), Nat.add_sub_cancel, getD_cons_eq_if]

theorem act500_D_x : act500.D_x = [1000, 500, 0] := by
  show mkD flatRate0 tbl500.l_x = [1000, 500, 0]
  rw [tbl500_l_x]
  norm_num [mkD, mkDaux, flatRate0]

theorem act500_C_x : act500.C_x = [0, 500, 500] := by
  show mkC flatRate0 sqrtOne tbl500.l_x = [0, 500, 500]
  rw [tbl500_l_x]
  norm_num [mkC, mkCaux, flatRate0, sqrtOne]

/-- C3, counterexample: the claim's formula
`C[x] = (1/(1+rate(x)))^(x+1) * (l[x]-l[x+1]) * (1+rate(x))^0.5` fails at
`x = 0` (an age inside the table range, `0 < w`): on the curve
`[1000, 500, 0]` at zero rate the claim gives `500`, but the code's `C_x`
loop pairs `l_x[0]` with itself on its first iteration, so `C[0] = 0`. -/
theorem C3_Cx_counterexample :
    (0 : ℤ) < act500.w ∧
    act500.C_x.getD 0 0 ≠
      (1 / (1 + act500.rate 0)) ^ (0 + 1) *
        (act500.l_x.getD 0 0 - act500.l_x.getD 1 0) * act500.sqrtRate 0 := by
  constructor
  · show (0 : ℤ) < tbl500.w
    rw [tbl500_w]
    decide
  · rw [show act500.C_x = [0, 500, 500] from act500_C_x,
      show act500.l_x = [1000, 500, 0] from tbl500_l_x,
      show act500.rate 0 = 0 from rfl,
      show act500.sqrtRate 0 = 1 from rfl]
    norm_num

/-- C3, amended: the discounted-deaths column is shifted one slot later
than the claim says: `C[0] = 0` always, and for `0 < x < len(l)` the code
computes `C[x] = (1/(1+rate(x)))^(x+1) * (l[x-1] - l[x]) * (1+rate(x))^0.5`,
i.e. `C[x]` is built from the deaths occurring between age `x-1` and `x`
(the half-year adjustment factor `(1+rate(x))^0.5` is the oracle `sq`). -/
theorem C3_Cx_amended (rate sq : ℕ → ℚ) (l q e : List ℚ) (w : ℤ)
    (a : Actuarial) (ha : a = mkActuarial rate sq l q e w) :
    a.C_x.getD 0 0 = 0 ∧
    ∀ x : ℕ, 0 < x → x < l.length →
      a.C_x.getD x 0 =
        (1 / (1 + rate x)) ^ (x + 1) * (l.getD (x - 1) 0 - l.getD x 0) * sq x := by
  subst ha
  constructor
  · show (mkC rate sq l).getD 0 0 = 0
    cases l with
    | nil => simp [mkC, mkCaux]
    | cons b rest => simp [mkC, mkCaux]
  · intro x hx hlen
    show (mkC rate sq l).getD x 0 = _
    unfold mkC
    rw [mkCaux_getD rate sq l 0 x (l.headD 0) hlen, if_neg hx.ne']
    simp

/-- C3, witness for the amended theorem on the curve `[1000, 500, 0]` at
zero rate: `C[0] = 0` and `C[1] = 1^2 * (1000 - 500) * 1`. -/
theorem C3_Cx_amended_witness :
    act500.C_x.getD 0 0 = 0 ∧
    act500.C_x.getD 1 0 =
      (1 / (1 + flatRate0 1)) ^ (1 + 1) *
        (tbl500.l_x.getD 0 0 - tbl500.l_x.getD 1 0) * sqrtOne 1 :=
  ⟨(C3_Cx_amended flatRate0 sqrtOne tbl500.l_x tbl500.q_x tbl500.e_x tbl500.w
      act500 rfl).1,
   (C3_Cx_amended flatRate0 sqrtOne tbl500.l_x tbl500.q_x tbl500.e_x tbl500.w
      act500 rfl).2 1 (by decide) (by rw [tbl500_l_x]; decide)⟩

/-- C5, counterexample: the claim says the present-value formulas never
fail once the model is built, but `Ax(x) = Mx(x)/Dx(x)` divides by
`Dx(x)` unguarded; at `x = 2` (the terminal zero of the curve
`[1000, 500, 0]`) the denominator is `0` and Python raises
`ZeroDivisionError` (modelled by `none`). -/
theorem C5_total_queries_counterexample :
    act500.Dx 2 = 0 ∧ act500.Ax 2 = none := by
  have hD : act500.Dx 2 = 0 := by
    rw [Dx_getD, act500_D_x]
    decide
  refine ⟨hD, ?_⟩
  unfold Actuarial.Ax
  rw [if_pos hD]

/-- C5, amended: the six commutation accessors are total and return `0`
beyond their column's range, and every listed present-value formula
returns a numeric value whenever `Dx(x) ≠ 0` and the payment frequency
satisfies `m ≥ 1`.  When `Dx(x) = 0` the division-based formulas `nEx`,
`Ax`, `Axn`, `tAx`, `AExn` (and the `m ≥ 2` annuity adjustments, through
`nEx`) raise `ZeroDivisionError` instead of returning a value, and at
`m = 0` all six annuity formulas raise `ZeroDivisionError` from
`float(m-1)/float(m*2)` regardless of `Dx(x)`. -/
theorem C5_total_queries_amended (a : Actuarial) :
    (∀ x : ℕ, a.D_x.length ≤ x → a.Dx x = 0) ∧
    (∀ x : ℕ, a.N_x.length ≤ x → a.Nx x = 0) ∧
    (∀ x : ℕ, a.C_x.length ≤ x → a.Cx x = 0) ∧
    (∀ x : ℕ, a.M_x.length ≤ x → a.Mx x = 0) ∧
    (∀ x : ℕ, a.N_x.length ≤ x → a.Sx x = 0) ∧
    (∀ x : ℕ, a.M_x.length ≤ x → a.Rx x = 0) ∧
    (∀ x n t m : ℕ, a.Dx x ≠ 0 → 1 ≤ m →
      (a.nEx x n).isSome = true ∧ (a.Ax x).isSome = true ∧
      (a.Axn x n).isSome = true ∧ (a.tAx x t).isSome = true ∧
      (a.AExn x n).isSome = true ∧ (a.aaxn x n m).isSome = true ∧
      (a.axn x n m).isSome = true ∧ (a.aax x m).isSome = true ∧
      (a.ax x m).isSome = true ∧ (a.taax x t m).isSome = true ∧
      (a.tax x t m).isSome = true) := by
  refine ⟨?_, ?_, ?_, ?_, ?_, ?_, ?_⟩
  · intro x hx
    unfold Actuarial.Dx
    rw [if_neg (Nat.not_lt.mpr hx)]
  · intro x hx
    unfold Actuarial.Nx
    rw [if_neg (Nat.not_lt.mpr hx)]
  · intro x hx
    unfold Actuarial.Cx
    rw [if_neg (Nat.not_lt.mpr hx)]
  · intro x hx
    unfold Actuarial.Mx
    rw [if_neg (Nat.not_lt.mpr hx)]
  · intro x hx
    unfold Actuarial.Sx
    rw [List.drop_eq_nil_of_le hx]
    rfl
  · intro x hx
    unfold Actuarial.Rx
    rw [List.drop_eq_nil_of_le hx]
    rfl
  · intro x n t m h hm
    have hm0 : m ≠ 0 := by omega
    have hn : a.nEx x n = some (a.Dx (x + n) / a.Dx x) := by
      unfold Actuarial.nEx
      rw [if_neg h]
    have ht : a.nEx x t = some (a.Dx (x + t) / a.Dx x) := by
      unfold Actuarial.nEx
      rw [if_neg h]
    refine ⟨?_, ?_, ?_, ?_, ?_, ?_, ?_, ?_, ?_, ?_, ?_⟩
    · simp [hn]
    · simp [Actuarial.Ax, h]
    · simp [Actuarial.Axn, h]
    · simp [Actuarial.tAx, h]
    · simp [Actuarial.AExn, Actuarial.Axn, h, hn]
    · by_cases hm1 : m = 1 <;> simp [Actuarial.aaxn, hm1, hm0, hn]
    · by_cases hm1 : m = 1 <;> simp [Actuarial.axn, hm1, hm0, hn]
    · by_cases hm1 : m = 1 <;> simp [Actuarial.aax, hm1, hm0]
    · by_cases hm1 : m = 1 <;> simp [Actuarial.ax, hm1, hm0]
    · by_cases hm1 : m = 1 <;> simp [Actuarial.taax, hm1, hm0, ht]
    · by_cases hm1 : m = 1 <;> simp [Actuarial.tax, hm1, hm0, ht]

/-- C5, witness for the amended theorem: on the zero-rate model over
`[1000, 500, 0]`, `Dx(7) = 0` (beyond the range) and the `m = 3`
temporary annuity-due at `x = 0` returns a value. -/
theorem C5_total_queries_amended_witness :
    act500.Dx 7 = 0 ∧ (act500.aaxn 0 1 3).isSome = true := by
  obtain ⟨hD, _, _, _, _, _, hF⟩ := C5_total_queries_amended act500
  refine ⟨hD 7 ?_, ?_⟩
  · rw [act500_D_x]
    decide
  · exact (hF 0 1 0 3 (by rw [Dx_getD, act500_D_x]; decide)
      (by decide)).2.2.2.2.2.1

/-- C6, counterexample: the claim says the fallback values hold for every
payment frequency `m ≥ 1`, but at `m = 2` the whole-life annuity-due with
`Dx(x) = 0` returns `1 - (2-1)/(2*2) = 3/4`, not the documented `1`
(and the `m ≠ 1` branches of `aaxn`, `axn`, `taax`, `tax` raise
`ZeroDivisionError` through `nEx`). -/
theorem C6_annuity_fallback_counterexample :
    act500.Dx 2 = 0 ∧ 1 ≤ 2 ∧ act500.aax 2 2 ≠ some 1 := by
  have hD : act500.Dx 2 = 0 := by
    rw [Dx_getD, act500_D_x]
    decide
  have hnot : ¬(act500.Dx 2 > 0) := by
    rw [hD]
    exact lt_irrefl 0
  refine ⟨hD, by decide, ?_⟩
  simp only [Actuarial.aax, if_neg hnot]
  norm_num

/-- C6, amended: the documented fallbacks hold exactly at `m = 1`: when
`Dx(x) = 0`, `aaxn` and `aax` return `1`, `axn`, `ax` and `tax` return
`0`, and `taax` returns `1` when `t = 0` and `0` otherwise. -/
theorem C6_annuity_fallback_amended (a : Actuarial) (x n t : ℕ)
    (hD : a.Dx x = 0) :
    a.aaxn x n 1 = some 1 ∧ a.axn x n 1 = some 0 ∧ a.aax x 1 = some 1 ∧
    a.ax x 1 = some 0 ∧ a.taax x t 1 = some (if t = 0 then 1 else 0) ∧
    a.tax x t 1 = some 0 := by
  have hnot : ¬(a.Dx x > 0) := by
    rw [hD]
    exact lt_irrefl 0
  refine ⟨?_, ?_, ?_, ?_, ?_, ?_⟩ <;>
    simp [Actuarial.aaxn, Actuarial.axn, Actuarial.aax, Actuarial.ax,
      Actuarial.taax, Actuarial.tax, hnot]

/-- C6, witness for the amended theorem at `x = 2` (where `Dx = 0`) on
the zero-rate model over `[1000, 500, 0]`, with `n = 3`, `t = 4`. -/
theorem C6_annuity_fallback_amended_witness :
    act500.aaxn 2 3 1 = some 1 ∧ act500.axn 2 3 1 = some 0 ∧
    act500.aax 2 1 = some 1 ∧ act500.ax 2 1 = some 0 ∧
    act500.taax 2 4 1 = some (if 4 = 0 then 1 else 0) ∧
    act500.tax 2 4 1 = some 0 :=
  C6_annuity_fallback_amended act500 2 3 4 (by rw [Dx_getD, act500_D_x]; decide)

/-- C8: the reverse-cumulative commutation columns telescope.  Proved for
every `Actuarial` as built by `__init__` and for EVERY age `x` (the
accessors return `0` past the end of a column, so the identity holds
beyond the range as well, in particular for all `x < w` as claimed). -/
theorem C8_commutation_telescoping (rate sq : ℕ → ℚ) (l q e : List ℚ)
    (w : ℤ) (a : Actuarial) (ha : a = mkActuarial rate sq l q e w) (x : ℕ) :
    a.Nx x = a.Dx x + a.Nx (x + 1) ∧ a.Mx x = a.Cx x + a.Mx (x + 1) := by
  subst ha
  constructor
  · rw [Nx_sum, Nx_sum, Dx_getD]
    exact sum_drop_eq_getD_add _ x
  · rw [Mx_sum, Mx_sum, Cx_getD]
    exact sum_drop_eq_getD_add _ x

/-- C8, witness on the concrete zero-rate model over `[1000, 500, 0]` at
`x = 0`. -/
theorem C8_commutation_telescoping_witness :
    act500.Nx 0 = act500.Dx 0 + act500.Nx 1 ∧
    act500.Mx 0 = act500.Cx 0 + act500.Mx 1 :=
  C8_commutation_telescoping flatRate0 sqrtOne tbl500.l_x tbl500.q_x
    tbl500.e_x tbl500.w act500 rfl 0

/-- C9, counterexample: `nEx(x, 0)` is `Dx(x)/Dx(x)`, which raises
`ZeroDivisionError` (modelled by `none`) whenever `Dx(x) = 0` — e.g. at
`x = 5`, beyond the table range — so the zero-year pure endowment is NOT
`1` for every age `x`. -/
theorem C9_nEx_counterexample :
    act500.nEx 5 0 = none ∧ act500.nEx 5 0 ≠ some 1 := by
  have hD : act500.Dx 5 = 0 := by
    rw [Dx_getD, act500_D_x]
    decide
  have h : act500.nEx 5 0 = none := by
    unfold Actuarial.nEx
    rw [if_pos hD]
  rw [h]
  simp

/-- C9, amended: `nEx(x, 0) = 1` for every age `x` with `Dx(x) ≠ 0`
(at `Dx(x) = 0` the call raises `ZeroDivisionError` instead). -/
theorem C9_nEx_amended (a : Actuarial) (x : ℕ) (h : a.Dx x ≠ 0) :
    a.nEx x 0 = some 1 := by
  unfold Actuarial.nEx
  rw [if_neg h, Nat.add_zero, div_self h]

/-- C9, witness for the amended theorem at `x = 0` on the zero-rate model
over `[1000, 500, 0]`, where `Dx(0) = 1000 ≠ 0`. -/
theorem C9_nEx_amended_witness : act500.nEx 0 0 = some 1 :=
  C9_nEx_amended act500 0 (by rw [Dx_getD, act500_D_x]; decide)

/-- C10: under Python class-body semantics (a later `def` of the same
name overwrites the earlier one in the class dict), the public `Iaaxn`
and `Iaxn` operations resolve to the later `pass` bodies, so every call
returns `None` and the earlier commutation-ratio bodies are dead code. -/
theorem C10_shadowed_increasing_annuities (a : Actuarial) (x n : ℕ) :
    callMethod "Iaaxn" a x n = PyRet.noneRet ∧
    callMethod "Iaxn" a x n = PyRet.noneRet :=
  ⟨rfl, rfl⟩

end Pyliferisk
